import Mathlib

/- Verification development for the hearth repository: the listing-analysis
pipeline described in the design document and the front-end submit/report
handlers found under frontend/src. -/

namespace Hearth

/-! ## Front-end data shapes (frontend/src/components/landing/Hero.tsx and
frontend/src/app/report/page.tsx) -/

/-- The audit object of the backend response, as declared by the
`ApiAudit` interface in report/page.tsx (and the identical `AnalysisResult.audit`
interface in Hero.tsx). Numbers are embedded as integers. -/
structure ApiAudit where
  barrier_detected : String
  renovation_suggestion : String
  estimated_cost_usd : Int
  compliance_note : String
  accessibility_score : Int
  deriving DecidableEq

/-- The parsed body of a backend response (`ApiResult` in report/page.tsx,
`AnalysisResult` in Hero.tsx). The `audit` field is optional here because the
code guards on its presence (`if (result.audit)`) before trusting it. -/
structure ApiResult where
  audit : Option ApiAudit
  image_data : Option String
  deriving DecidableEq

/-- The observable part of a `fetch` response as used by `handleAnalyze`:
the `ok` flag, the `statusText`, and the JSON body (`none` when
`response.json()` throws). -/
structure FetchResponse where
  ok : Bool
  statusText : String
  json : Option ApiResult
  deriving DecidableEq

/-- The HTTP request `handleAnalyze` issues: target endpoint and the
`image_url` field of the JSON body. -/
structure PostRequest where
  url : String
  image_url : String
  deriving DecidableEq

/-- Drops leading whitespace characters from a character list. -/
def dropWhitespaceLeft : List Char → List Char
  | [] => []
  | c :: cs => if c.isWhitespace then dropWhitespaceLeft cs else c :: cs

/-- JavaScript's `String.prototype.trim` as used by `handleAnalyze`
(`url.trim()`): strips leading and trailing whitespace. Written by structural
recursion over the character list so concrete runs evaluate in the kernel. -/
def jsTrim (s : String) : String :=
  ⟨(dropWhitespaceLeft (dropWhitespaceLeft s.data.reverse).reverse)⟩

/-- The request issued by `handleAnalyze` in Hero.tsx: nothing when the
trimmed URL is empty (early return), otherwise a POST to the single-image
endpoint with body `\x7b image_url: url \x7d`. -/
def heroRequest (url : String) : Option PostRequest :=
  if jsTrim url = "" then none
  else some { url := "http://localhost:8000/analyze", image_url := url }

/-- The user-visible result of one run of `handleAnalyze`: either the early
return on an empty URL, a navigation to a route with the result and the URL
stored in localStorage, or an error message with the final loading flag. -/
inductive HeroOutcome where
  | idle
  | navigated (storedResult : ApiResult) (storedUrl : String) (route : String)
  | failed (errorMessage : String) (isLoading : Bool)
  deriving DecidableEq

/-- `handleAnalyze` from Hero.tsx, given the URL state and the fetch
response: empty trimmed URL returns early; a non-ok response throws and is
caught (error recorded, loading cleared); a body that fails to parse likewise;
a parsed body with a present `audit` stores the result and URL and navigates
to /report; an absent `audit` throws "No audit data returned". -/
def handleAnalyze (url : String) (response : FetchResponse) : HeroOutcome :=
  if jsTrim url = "" then .idle
  else if response.ok = false then
    .failed ("Analysis failed: " ++ response.statusText) false
  else
    match response.json with
    | none => .failed "An error occurred during analysis" false
    | some result =>
      match result.audit with
      | some _ => .navigated result url "/report"
      | none => .failed "Analysis failed: No audit data returned" false

/-- Accessibility score pair displayed by the report page. -/
structure AccessibilityScore where
  current : Int
  potential : Int
  deriving DecidableEq

/-- One feature row of the report page's `PropertyAnalysis`. -/
structure PropertyFeature where
  name : String
  riskLevel : String
  description : String
  deriving DecidableEq

/-- One image row of the report page's `PropertyAnalysis`. -/
structure ReportImage where
  label : String
  original : String
  renovated : String
  deriving DecidableEq

/-- The `PropertyAnalysis` shape consumed by the report page components
(the fields report/page.tsx populates). -/
structure PropertyAnalysis where
  id : String
  address : String
  originalPrice : Int
  renovationCost : Int
  accessibilityScore : AccessibilityScore
  features : List PropertyFeature
  images : List ReportImage
  deriving DecidableEq

/-- The `transformedAnalysis` construction of report/page.tsx: builds the
displayed `PropertyAnalysis` from a successfully parsed API result (its
audit and optional image data) and the stored original image URL. -/
def transformedAnalysis (audit : ApiAudit) (image_data : Option String)
    (storedOriginalUrl : String) : PropertyAnalysis :=
  { id := "api-result"
    address := "Accessibility Analysis"
    originalPrice := 0
    renovationCost := audit.estimated_cost_usd
    accessibilityScore :=
      { current := 100 - audit.accessibility_score
        potential := audit.accessibility_score }
    features :=
      [{ name := audit.barrier_detected
         riskLevel := "High"
         description := audit.renovation_suggestion }]
    images :=
      [{ label := "Analyzed Image"
         original := storedOriginalUrl
         renovated := image_data.getD storedOriginalUrl }] }

/-! ## The listing analysis pipeline.

The pipeline core (backend scraper, orchestrator and aggregator) is described
by the design document and by SCRAPER_INTEGRATION_GUIDE.md, but its code
(backend/scraper.py, backend/main.py) is not part of the checked-in sources;
the definitions below are modelled from the specification. -/

/-- Modelled from the spec: the classification of per-image analysis errors
(`AnalysisError{Transient, Permanent}` of the error taxonomy); the
orchestrator code carrying it is missing from the sources. -/
inductive AnalysisErrorKind where
  | transient
  | permanent
  deriving DecidableEq

/-- Modelled from the spec: the `Audit` record produced by the external
analysis capability for one photo. -/
structure Audit where
  barrierDetected : String
  renovationSuggestion : String
  estimatedCostUsd : Nat
  complianceNote : String
  accessibilityScore : Nat
  deriving DecidableEq

/-- Modelled from the spec: the tagged per-image outcome created by the
orchestrator — `Success` with the audit and optional regenerated image, or
`Failure` with the classified error kind and message. -/
inductive PerImageOutcome where
  | success (imageIndex : Nat) (originalUrl : String) (audit : Audit)
      (renovatedImageData : Option String)
  | failure (imageIndex : Nat) (originalUrl : String)
      (errorKind : AnalysisErrorKind) (message : String)
  deriving DecidableEq

/-- The photo index an outcome carries. -/
def PerImageOutcome.imageIndex : PerImageOutcome → Nat
  | .success i _ _ _ => i
  | .failure i _ _ _ => i

/-- The original photo URL an outcome carries. -/
def PerImageOutcome.originalUrl : PerImageOutcome → String
  | .success _ u _ _ => u
  | .failure _ u _ _ => u

/-- Whether an outcome is a `Success`. -/
def PerImageOutcome.isSuccess : PerImageOutcome → Bool
  | .success _ _ _ _ => true
  | .failure _ _ _ _ => false

/-- Whether an outcome is a `Failure`. -/
def PerImageOutcome.isFailure : PerImageOutcome → Bool
  | .success _ _ _ _ => false
  | .failure _ _ _ _ => true

/-- The classified error kind a `Failure` outcome carries, if any. -/
def PerImageOutcome.errorKind : PerImageOutcome → Option AnalysisErrorKind
  | .success _ _ _ _ => none
  | .failure _ _ k _ => some k

/-- Modelled from the spec: the result of one attempt of an external analysis
call — success, or a classified-transient error, or a classified-permanent
error. -/
inductive CallResult (α : Type) where
  | ok (value : α)
  | transientErr (message : String)
  | permanentErr (message : String)
  deriving DecidableEq

/-- Whether an attempt result is a success. -/
def CallResult.isOk : CallResult α → Bool
  | .ok _ => true
  | _ => false

/-- Whether an attempt result is a classified-transient error. -/
def CallResult.isTransient : CallResult α → Bool
  | .transientErr _ => true
  | _ => false

/-- Modelled from the spec: the exponential backoff schedule — the delay
before the retry following attempt number `attempt` doubles each time,
starting from `base`. -/
def backoffDelay (base attempt : Nat) : Nat := base * 2 ^ attempt

/-- The observable record of one retried call: its terminal result, the
number of attempts actually issued, and the backoff delays waited between
attempts. -/
structure RetryRun (α : Type) where
  result : CallResult α
  callsMade : Nat
  delays : List Nat
  deriving DecidableEq

/-- Modelled from the spec: the retry loop of the orchestrator's per-call
fault policy, starting at attempt number `start` with `fuel` retries left.
A success or a classified-permanent error is terminal immediately; a
classified-transient error is retried after an exponential backoff delay
while retry budget remains. -/
def retryFrom (base : Nat) (attempts : Nat → CallResult α) :
    Nat → Nat → RetryRun α
  | start, fuel =>
    match attempts start with
    | .ok a => ⟨.ok a, 1, []⟩
    | .permanentErr m => ⟨.permanentErr m, 1, []⟩
    | .transientErr m =>
      match fuel with
      | 0 => ⟨.transientErr m, 1, []⟩
      | fuel' + 1 =>
        let rest := retryFrom base attempts (start + 1) fuel'
        ⟨rest.result, rest.callsMade + 1, backoffDelay base start :: rest.delays⟩

/-- Modelled from the spec: run one external call with retry budget `R` for
classified-transient failures and exponential backoff starting at `base`. -/
def retryExec (base R : Nat) (attempts : Nat → CallResult α) : RetryRun α :=
  retryFrom base attempts 0 R

/-- Modelled from the spec: the programmable behaviour of the external
analysis capability for one image — what each successive `audit` attempt and
each successive `regenerate` attempt returns. -/
structure ImageCallBehavior where
  auditAttempts : Nat → CallResult Audit
  regenAttempts : Nat → CallResult String

/-- Modelled from the spec: one per-image task of the orchestrator. It runs
`audit(url)` under the retry policy; on terminal audit failure it produces a
`Failure` outcome with the error's classification; on audit success it runs
`regenerate(url, audit)` under the retry policy, and reports `Success`
carrying the audit either way — with the image on regeneration success, with
`renovatedImageData = none` on regeneration failure. -/
def runTask (base R : Nat) (idx : Nat) (url : String)
    (beh : ImageCallBehavior) : PerImageOutcome :=
  match (retryExec base R beh.auditAttempts).result with
  | .ok audit =>
    match (retryExec base R beh.regenAttempts).result with
    | .ok image => .success idx url audit (some image)
    | .transientErr _ => .success idx url audit none
    | .permanentErr _ => .success idx url audit none
  | .transientErr m => .failure idx url .transient m
  | .permanentErr m => .failure idx url .permanent m

/-- Modelled from the spec: selection — the first
`min(maxImages, len(PhotoSet))` photos in PhotoSet order, each paired with
its position in the PhotoSet. -/
def selectPhotos (photoSet : List String) (maxImages : Nat) :
    List (Nat × String) :=
  (photoSet.take maxImages).enum

/-- Modelled from the spec: one orchestrator invocation — every selected
photo is dispatched as an independent task and produces exactly one terminal
outcome, listed here in PhotoSet order. `beh i` is the external capability's
behaviour for the photo at position `i`. -/
def runPipeline (base R : Nat) (photoSet : List String) (maxImages : Nat)
    (beh : Nat → ImageCallBehavior) : List PerImageOutcome :=
  (selectPhotos photoSet maxImages).map fun p => runTask base R p.1 p.2 (beh p.1)

/-- Modelled from the spec: the number of external analysis operations one
task issues — `audit` once, and `regenerate` only if the audit succeeded. -/
def taskCallCount (base R : Nat) (beh : ImageCallBehavior) : Nat :=
  match (retryExec base R beh.auditAttempts).result with
  | .ok _ => 2
  | .transientErr _ => 1
  | .permanentErr _ => 1

/-- Modelled from the spec: the total number of external analysis operations
issued by one orchestrator invocation. -/
def totalCallCount (base R : Nat) (photoSet : List String) (maxImages : Nat)
    (beh : Nat → ImageCallBehavior) : Nat :=
  ((selectPhotos photoSet maxImages).map fun p => taskCallCount base R (beh p.1)).sum

/-- Modelled from the spec: the listing metadata extracted by the parser;
every field is optional and absence does not abort the pipeline. -/
structure ListingMetadata where
  address : Option String
  price : Option String
  bedroomCount : Option String
  bathroomCount : Option String
  squareFeet : Option String
  listingId : Option String
  neighborhood : Option String
  crossStreet : Option String
  deriving DecidableEq

/-- Modelled from the spec: the final `AggregateReport`. -/
structure AggregateReport where
  propertyInfo : ListingMetadata
  totalImagesFound : Nat
  imagesAnalyzed : Nat
  results : List PerImageOutcome
  deriving DecidableEq

/-- Modelled from the spec: the `ResultAggregator` — sorts outcomes by
`imageIndex` ascending, sets `imagesAnalyzed` to the number of outcomes, and
passes the metadata and `totalImagesFound` through unchanged. -/
def aggregate (metadata : ListingMetadata) (totalImagesFound : Nat)
    (outcomes : List PerImageOutcome) : AggregateReport :=
  { propertyInfo := metadata
    totalImagesFound := totalImagesFound
    imagesAnalyzed := outcomes.length
    results := outcomes.mergeSort fun a b => decide (a.imageIndex ≤ b.imageIndex) }

/-- Modelled from the spec: the kinds of listing-level scrape failures, all
fatal to the whole request. -/
inductive ScrapeErrorKind where
  | notFound
  | blocked
  | timeout
  | parseError
  deriving DecidableEq

/-- Modelled from the spec: a request-level rejection — either a
listing-level `ScrapeError` with its kind, or a `ValidationError` for a
malformed request. -/
inductive RequestError where
  | scrape (kind : ScrapeErrorKind)
  | validation (message : String)
  deriving DecidableEq

/-- Modelled from the spec: the body of `POST /analyze-from-listing`. -/
structure AnalysisRequest where
  listingUrl : String
  maxImages : Nat
  deriving DecidableEq

/-- Modelled from the spec: request validation, performed before any network
activity — the listing URL must be non-empty and parse as a URL (URL
well-formedness is the capability `urlOk`), and `maxImages` must be
positive. -/
def validateRequest (urlOk : String → Bool) (req : AnalysisRequest) :
    Option RequestError :=
  if req.listingUrl = "" then some (.validation "missing listing_url")
  else if urlOk req.listingUrl = false then some (.validation "invalid listing_url")
  else if req.maxImages = 0 then some (.validation "non-positive max_images")
  else none

/-- Modelled from the spec: the `/analyze-from-listing` request handler,
missing from the sources. Validation runs first; then the page fetch
(`fetchResult` is the rendering capability's result); then the parse
(`parsePage`, which tolerates missing metadata but makes the request fail
with `ScrapeError{ParseError}` when zero photos are extracted); only then
does per-image analysis run. The second component counts the external
analysis calls the invocation issued. -/
def analyzeFromListing (base R : Nat) (urlOk : String → Bool)
    (req : AnalysisRequest) (fetchResult : Except ScrapeErrorKind String)
    (parsePage : String → ListingMetadata × List String)
    (beh : Nat → ImageCallBehavior) :
    Except RequestError AggregateReport × Nat :=
  match validateRequest urlOk req with
  | some e => (.error e, 0)
  | none =>
    match fetchResult with
    | .error kind => (.error (.scrape kind), 0)
    | .ok page =>
      let parsed := parsePage page
      if parsed.2.isEmpty then (.error (.scrape .parseError), 0)
      else
        (.ok (aggregate parsed.1 parsed.2.length
              (runPipeline base R parsed.2 req.maxImages beh)),
         totalCallCount base R parsed.2 req.maxImages beh)

/-- Modelled from the spec: the instantaneous state of the bounded worker
pool — how many selected tasks are not yet started, how many analysis tasks
(each performing at most one external call at a time) are currently
executing, and how many have produced their terminal outcome. -/
structure PoolState where
  pending : Nat
  active : Nat
  finished : Nat
  deriving DecidableEq

/-- Modelled from the spec: one scheduling step of the bounded worker pool
with worker budget `W` — a pending task may start only while fewer than `W`
tasks are active, and an active task may finish at any time. -/
inductive PoolStep (W : Nat) : PoolState → PoolState → Prop
  | start (s : PoolState) (hp : 0 < s.pending) (ha : s.active < W) :
      PoolStep W s ⟨s.pending - 1, s.active + 1, s.finished⟩
  | finish (s : PoolState) (ha : 0 < s.active) :
      PoolStep W s ⟨s.pending, s.active - 1, s.finished + 1⟩

/-- Modelled from the spec: the states a batch of `k` selected tasks can
reach under the bounded worker pool, from the initial state in which all `k`
tasks are pending, along any interleaving of starts and finishes. -/
inductive PoolReachable (W k : Nat) : PoolState → Prop
  | init : PoolReachable W k ⟨k, 0, 0⟩
  | step {s t : PoolState} (hs : PoolReachable W k s) (hstep : PoolStep W s t) :
      PoolReachable W k t

/-- C9: for every non-empty (after trimming) URL the user submits, the landing
page handler issues a POST to http://localhost:8000/analyze with body
image_url = the URL; it navigates to /report with the result and URL stored
exactly when the response is ok and parses with a non-null audit; otherwise it
records an error message and clears the loading state without navigating. -/
theorem hero_submit_contract (url : String) (response : FetchResponse)
    (hurl : jsTrim url ≠ "") :
    heroRequest url = some { url := "http://localhost:8000/analyze", image_url := url } ∧
    (∀ result : ApiResult, response.ok = true → response.json = some result →
      result.audit.isSome →
      handleAnalyze url response = .navigated result url "/report") ∧
    ((response.ok = false ∨ response.json = none ∨
        (∃ result, response.json = some result ∧ result.audit = none)) →
      ∃ msg, handleAnalyze url response = .failed msg false) := by
  refine ⟨by simp [heroRequest, hurl], ?_, ?_⟩
  · intro result hok hjson haudit
    obtain ⟨a, ha⟩ := Option.isSome_iff_exists.mp haudit
    simp [handleAnalyze, hurl, hok, hjson, ha]
  · intro h
    rcases response with ⟨ok, statusText, json⟩
    cases ok with
    | false => exact ⟨"Analysis failed: " ++ statusText, by simp [handleAnalyze, hurl]⟩
    | true =>
      rcases h with hok | hjson | ⟨result, hjson, haudit⟩
      · exact absurd hok (by simp)
      · simp only at hjson
        subst hjson
        exact ⟨"An error occurred during analysis", by simp [handleAnalyze, hurl]⟩
      · simp only at hjson
        subst hjson
        exact ⟨"Analysis failed: No audit data returned", by simp [handleAnalyze, hurl, haudit]⟩

/-- Witness for C9 at a concrete URL and ok response carrying an audit. -/
theorem hero_submit_contract_witness :
    handleAnalyze "u"
        { ok := true, statusText := "OK",
          json := some { audit := some { barrier_detected := "b",
                                         renovation_suggestion := "r",
                                         estimated_cost_usd := 100,
                                         compliance_note := "c",
                                         accessibility_score := 80 },
                         image_data := none } }
      = .navigated { audit := some { barrier_detected := "b",
                                     renovation_suggestion := "r",
                                     estimated_cost_usd := 100,
                                     compliance_note := "c",
                                     accessibility_score := 80 },
                     image_data := none } "u" "/report" :=
  (hero_submit_contract "u" _ (by decide)).2.1 _ rfl rfl rfl

/-- C10: for every parsed API result the report page displays, the current
accessibility score is 100 minus the audit's accessibility_score, the
potential score is the audit's accessibility_score itself, and the two sum
to 100. -/
theorem report_score_presentation (audit : ApiAudit) (image_data : Option String)
    (storedOriginalUrl : String) :
    (transformedAnalysis audit image_data storedOriginalUrl).accessibilityScore.current
        = 100 - audit.accessibility_score ∧
    (transformedAnalysis audit image_data storedOriginalUrl).accessibilityScore.potential
        = audit.accessibility_score ∧
    (transformedAnalysis audit image_data storedOriginalUrl).accessibilityScore.current
        + (transformedAnalysis audit image_data storedOriginalUrl).accessibilityScore.potential
        = 100 := by
  refine ⟨rfl, rfl, ?_⟩
  simp [transformedAnalysis]

/-- A task's outcome always carries the photo index the task was given. -/
theorem runTask_imageIndex (base R i : Nat) (url : String)
    (beh : ImageCallBehavior) :
    (runTask base R i url beh).imageIndex = i := by
  rcases ha : (retryExec base R beh.auditAttempts).result with a | m | m
  · rcases hr : (retryExec base R beh.regenAttempts).result with s | m | m <;>
      simp [runTask, ha, hr, PerImageOutcome.imageIndex]
  · simp [runTask, ha, PerImageOutcome.imageIndex]
  · simp [runTask, ha, PerImageOutcome.imageIndex]

/-- A task's outcome always carries the photo URL the task was given. -/
theorem runTask_originalUrl (base R i : Nat) (url : String)
    (beh : ImageCallBehavior) :
    (runTask base R i url beh).originalUrl = url := by
  rcases ha : (retryExec base R beh.auditAttempts).result with a | m | m
  · rcases hr : (retryExec base R beh.regenAttempts).result with s | m | m <;>
      simp [runTask, ha, hr, PerImageOutcome.originalUrl]
  · simp [runTask, ha, PerImageOutcome.originalUrl]
  · simp [runTask, ha, PerImageOutcome.originalUrl]

/-- C1: one pipeline invocation over a listing with `N` photos and a cap of
`maxImages` produces exactly `min(N, maxImages)` outcomes; their image
indices are exactly `0, 1, …, min(N, maxImages) - 1` in order (hence unique
and in range), and the outcome carrying index `i` is for the photo at
position `i` of the PhotoSet — presentation order, not completion order. -/
theorem pipeline_selection_indexing (base R maxImages : Nat)
    (photoSet : List String) (beh : Nat → ImageCallBehavior) :
    (runPipeline base R photoSet maxImages beh).length
        = min photoSet.length maxImages ∧
    (runPipeline base R photoSet maxImages beh).map PerImageOutcome.imageIndex
        = List.range (min photoSet.length maxImages) ∧
    ((runPipeline base R photoSet maxImages beh).map PerImageOutcome.imageIndex).Nodup ∧
    (runPipeline base R photoSet maxImages beh).map PerImageOutcome.originalUrl
        = photoSet.take maxImages := by
  have hidx : (runPipeline base R photoSet maxImages beh).map PerImageOutcome.imageIndex
      = List.range (min photoSet.length maxImages) := by
    unfold runPipeline selectPhotos
    rw [List.map_map]
    have hcong : (photoSet.take maxImages).enum.map
          (PerImageOutcome.imageIndex ∘ fun p => runTask base R p.1 p.2 (beh p.1))
        = (photoSet.take maxImages).enum.map Prod.fst :=
      List.map_congr_left fun p _ => runTask_imageIndex base R p.1 p.2 (beh p.1)
    rw [hcong, List.enum_map_fst, List.length_take, Nat.min_comm]
  refine ⟨?_, hidx, ?_, ?_⟩
  · have := congrArg List.length hidx
    simpa using this
  · rw [hidx]; exact List.nodup_range _
  · unfold runPipeline selectPhotos
    rw [List.map_map]
    have hcong : (photoSet.take maxImages).enum.map
          (PerImageOutcome.originalUrl ∘ fun p => runTask base R p.1 p.2 (beh p.1))
        = (photoSet.take maxImages).enum.map Prod.snd :=
      List.map_congr_left fun p _ => runTask_originalUrl base R p.1 p.2 (beh p.1)
    rw [hcong, List.enum_map_snd]

/-- Sorting outcomes whose image indices are pairwise distinct by
`imageIndex` ascending yields a strictly increasing sequence of indices. -/
theorem mergeSort_results_strict (outcomes : List PerImageOutcome)
    (h : (outcomes.map PerImageOutcome.imageIndex).Nodup) :
    (outcomes.mergeSort fun a b => decide (a.imageIndex ≤ b.imageIndex)).Pairwise
      fun a b => a.imageIndex < b.imageIndex := by
  have hle : (outcomes.mergeSort fun a b => decide (a.imageIndex ≤ b.imageIndex)).Pairwise
      fun a b => a.imageIndex ≤ b.imageIndex := by
    have hs := @List.sorted_mergeSort PerImageOutcome
      (fun a b => decide (a.imageIndex ≤ b.imageIndex))
      (fun a b c hab hbc => by
        simp only [decide_eq_true_eq] at hab hbc ⊢
        omega)
      (fun a b => by
        simp only [Bool.or_eq_true, decide_eq_true_eq]
        omega)
      outcomes
    exact hs.imp fun hab => by simpa using hab
  have hperm := List.mergeSort_perm outcomes
    fun a b => decide (a.imageIndex ≤ b.imageIndex)
  have hnd : ((outcomes.mergeSort fun a b => decide (a.imageIndex ≤ b.imageIndex)).map
      PerImageOutcome.imageIndex).Nodup :=
    ((hperm.map PerImageOutcome.imageIndex).nodup_iff).mpr h
  have hne : (outcomes.mergeSort fun a b => decide (a.imageIndex ≤ b.imageIndex)).Pairwise
      fun a b => a.imageIndex ≠ b.imageIndex := List.pairwise_map.mp hnd
  exact (hle.and hne).imp fun hab => lt_of_le_of_ne hab.1 hab.2

/-- C2: for every collection of per-image outcomes with distinct image
indices — arriving in any completion order — the aggregator returns results
sorted strictly increasing by `imageIndex` (a permutation of the outcomes),
sets `imagesAnalyzed` to the number of outcomes, passes the metadata and
`totalImagesFound` through unchanged, and produces the same results sequence
for every reordering of the same outcomes. -/
theorem aggregate_contract (metadata : ListingMetadata) (totalImagesFound : Nat)
    (outcomes : List PerImageOutcome)
    (hnodup : (outcomes.map PerImageOutcome.imageIndex).Nodup) :
    (aggregate metadata totalImagesFound outcomes).results.Pairwise
        (fun a b => a.imageIndex < b.imageIndex) ∧
    (aggregate metadata totalImagesFound outcomes).results.Perm outcomes ∧
    (aggregate metadata totalImagesFound outcomes).imagesAnalyzed = outcomes.length ∧
    (aggregate metadata totalImagesFound outcomes).propertyInfo = metadata ∧
    (aggregate metadata totalImagesFound outcomes).totalImagesFound = totalImagesFound ∧
    ∀ outcomes' : List PerImageOutcome, outcomes'.Perm outcomes →
      (aggregate metadata totalImagesFound outcomes').results
        = (aggregate metadata totalImagesFound outcomes).results := by
  refine ⟨mergeSort_results_strict outcomes hnodup,
    List.mergeSort_perm outcomes _, rfl, rfl, rfl, ?_⟩
  intro outcomes' hperm
  have hnodup' : (outcomes'.map PerImageOutcome.imageIndex).Nodup :=
    ((hperm.map PerImageOutcome.imageIndex).nodup_iff).mpr hnodup
  have hs1 := mergeSort_results_strict outcomes' hnodup'
  have hs2 := mergeSort_results_strict outcomes hnodup
  have hp : (aggregate metadata totalImagesFound outcomes').results.Perm
      (aggregate metadata totalImagesFound outcomes).results :=
    (List.mergeSort_perm outcomes' _).trans
      (hperm.trans (List.mergeSort_perm outcomes _).symm)
  haveI : IsAntisymm PerImageOutcome (fun a b => a.imageIndex < b.imageIndex) :=
    ⟨fun a b h1 h2 => absurd h1 (by omega)⟩
  exact List.eq_of_perm_of_sorted hp hs1 hs2

/-- Witness for C2 at a concrete pair of outcomes delivered out of order. -/
theorem aggregate_contract_witness :
    (aggregate ⟨none, none, none, none, none, none, none, none⟩ 2
        [PerImageOutcome.failure 1 "b" .permanent "m",
         PerImageOutcome.success 0 "a" ⟨"w", "r", 1, "c", 50⟩ none]).results.Pairwise
      (fun a b => a.imageIndex < b.imageIndex) ∧
    (aggregate ⟨none, none, none, none, none, none, none, none⟩ 2
        [PerImageOutcome.failure 1 "b" .permanent "m",
         PerImageOutcome.success 0 "a" ⟨"w", "r", 1, "c", 50⟩ none]).imagesAnalyzed = 2 :=
  ⟨(aggregate_contract _ _ _ (by decide)).1,
   ((aggregate_contract ⟨none, none, none, none, none, none, none, none⟩ 2
      [PerImageOutcome.failure 1 "b" .permanent "m",
       PerImageOutcome.success 0 "a" ⟨"w", "r", 1, "c", 50⟩ none] (by decide)).2.2.1).trans rfl⟩

/-- A successful attempt ends the retry loop at once. -/
theorem retryFrom_ok (base : Nat) (attempts : Nat → CallResult α)
    (start fuel : Nat) (a : α) (h : attempts start = .ok a) :
    retryFrom base attempts start fuel = ⟨.ok a, 1, []⟩ := by
  unfold retryFrom
  rw [h]

/-- A classified-permanent failure ends the retry loop at once: it is never
retried, whatever retry budget remains. -/
theorem retryFrom_permanent (base : Nat) (attempts : Nat → CallResult α)
    (start fuel : Nat) (m : String) (h : attempts start = .permanentErr m) :
    retryFrom base attempts start fuel = ⟨.permanentErr m, 1, []⟩ := by
  unfold retryFrom
  rw [h]

/-- A classified-transient failure with no retry budget left is terminal. -/
theorem retryFrom_transient_zero (base : Nat) (attempts : Nat → CallResult α)
    (start : Nat) (m : String) (h : attempts start = .transientErr m) :
    retryFrom base attempts start 0 = ⟨.transientErr m, 1, []⟩ := by
  unfold retryFrom
  rw [h]

/-- A classified-transient failure with budget left waits the exponential
backoff delay for this attempt and continues with the next attempt. -/
theorem retryFrom_transient_succ (base : Nat) (attempts : Nat → CallResult α)
    (start fuel : Nat) (m : String) (h : attempts start = .transientErr m) :
    retryFrom base attempts start (fuel + 1)
      = ⟨(retryFrom base attempts (start + 1) fuel).result,
         (retryFrom base attempts (start + 1) fuel).callsMade + 1,
         backoffDelay base start :: (retryFrom base attempts (start + 1) fuel).delays⟩ := by
  conv_lhs => rw [retryFrom]
  rw [h]

/-- If the first `s` attempts (numbered from `start`) are classified
transient and attempt `start + s` is not, the retry loop returns the result
of attempt `start + s` after exactly `s + 1` attempts, having waited the
exponential backoff delays of attempts `start, …, start + s - 1`. -/
theorem retryFrom_spec (base : Nat) (attempts : Nat → CallResult α) :
    ∀ (s fuel start : Nat), s ≤ fuel →
      (∀ n, n < s → (attempts (start + n)).isTransient = true) →
      (attempts (start + s)).isTransient = false →
      retryFrom base attempts start fuel
        = ⟨attempts (start + s), s + 1,
           (List.range s).map fun i => backoffDelay base (start + i)⟩ := by
  intro s
  induction s with
  | zero =>
    intro fuel start _ _ hterm
    rw [Nat.add_zero] at hterm
    rcases ha : attempts start with a | m | m
    · rw [retryFrom_ok base attempts start fuel a ha]
      simp [ha]
    · rw [ha] at hterm
      simp [CallResult.isTransient] at hterm
    · rw [retryFrom_permanent base attempts start fuel m ha]
      simp [ha]
  | succ n ih =>
    intro fuel start hs h hterm
    have h0 := h 0 (Nat.succ_pos n)
    rw [Nat.add_zero] at h0
    rcases ha : attempts start with a | m | m
    · rw [ha] at h0
      simp [CallResult.isTransient] at h0
    · rcases fuel with _ | fuel'
      · omega
      · rw [retryFrom_transient_succ base attempts start fuel' m ha]
        have ih' := ih fuel' (start + 1) (by omega)
          (fun k hk => by
            have := h (k + 1) (by omega)
            rwa [show start + (k + 1) = start + 1 + k by omega] at this)
          (by rwa [show start + 1 + n = start + (n + 1) by omega])
        rw [ih']
        simp only [RetryRun.mk.injEq]
        refine ⟨?_, trivial, ?_⟩
        · rw [show start + 1 + n = start + (n + 1) by omega]
        · rw [List.range_succ_eq_map, List.map_cons, List.map_map]
          simp only [List.cons.injEq]
          refine ⟨by rw [Nat.add_zero], ?_⟩
          refine List.map_congr_left fun i _ => ?_
          simp only [Function.comp_apply]
          rw [show start + 1 + i = start + Nat.succ i by omega]
    · rw [ha] at h0
      simp [CallResult.isTransient] at h0

/-- If every attempt within the budget is classified transient, the retry
loop exhausts the budget: `fuel + 1` attempts, all backoff delays waited,
and the final transient error is terminal. -/
theorem retryFrom_exhaust (base : Nat) (attempts : Nat → CallResult α) :
    ∀ (fuel start : Nat),
      (∀ n, n ≤ fuel → (attempts (start + n)).isTransient = true) →
      retryFrom base attempts start fuel
        = ⟨attempts (start + fuel), fuel + 1,
           (List.range fuel).map fun i => backoffDelay base (start + i)⟩ := by
  intro fuel
  induction fuel with
  | zero =>
    intro start h
    have h0 := h 0 (Nat.le_refl 0)
    rw [Nat.add_zero] at h0 ⊢
    rcases ha : attempts start with a | m | m
    · rw [ha] at h0
      simp [CallResult.isTransient] at h0
    · rw [retryFrom_transient_zero base attempts start m ha]
      simp [ha]
    · rw [ha] at h0
      simp [CallResult.isTransient] at h0
  | succ n ih =>
    intro start h
    have h0 := h 0 (Nat.zero_le _)
    rw [Nat.add_zero] at h0
    rcases ha : attempts start with a | m | m
    · rw [ha] at h0
      simp [CallResult.isTransient] at h0
    · rw [retryFrom_transient_succ base attempts start n m ha]
      have ih' := ih (start + 1)
        (fun k hk => by
          have := h (k + 1) (by omega)
          rwa [show start + (k + 1) = start + 1 + k by omega] at this)
      rw [ih']
      simp only [RetryRun.mk.injEq]
      refine ⟨?_, trivial, ?_⟩
      · rw [show start + 1 + n = start + (n + 1) by omega]
      · rw [List.range_succ_eq_map, List.map_cons, List.map_map]
        simp only [List.cons.injEq]
        refine ⟨by rw [Nat.add_zero], ?_⟩
        refine List.map_congr_left fun i _ => ?_
        simp only [Function.comp_apply]
        rw [show start + 1 + i = start + Nat.succ i by omega]
    · rw [ha] at h0
      simp [CallResult.isTransient] at h0

/-- `retryExec` form of `retryFrom_spec`: `s ≤ R` transient attempts before
a non-transient attempt `s` give that attempt's result after `s + 1` calls
and the exponential delays `base·2^0, …, base·2^(s-1)`. -/
theorem retryExec_spec (base R s : Nat) (attempts : Nat → CallResult α)
    (hs : s ≤ R) (h : ∀ n, n < s → (attempts n).isTransient = true)
    (hterm : (attempts s).isTransient = false) :
    retryExec base R attempts
      = ⟨attempts s, s + 1, (List.range s).map (backoffDelay base)⟩ := by
  have hspec := retryFrom_spec base attempts s R 0 hs
    (fun n hn => by simpa using h n hn) (by simpa using hterm)
  rw [retryExec, hspec]
  simp

/-- `retryExec` form of `retryFrom_exhaust`: `R + 1` consecutive transient
attempts exhaust the budget. -/
theorem retryExec_exhaust (base R : Nat) (attempts : Nat → CallResult α)
    (h : ∀ n, n ≤ R → (attempts n).isTransient = true) :
    retryExec base R attempts
      = ⟨attempts R, R + 1, (List.range R).map (backoffDelay base)⟩ := by
  have hspec := retryFrom_exhaust base attempts R 0 (fun n hn => by simpa using h n hn)
  rw [retryExec, hspec]
  simp

/-- C5: in every state reachable by any interleaving of task starts and
finishes under the bounded worker pool, the number of concurrently executing
analysis tasks — hence of concurrent external analysis calls — satisfies
`0 ≤ active ≤ W`, however large the selected batch `k` is. -/
theorem worker_pool_bound (W k : Nat) (s : PoolState)
    (h : PoolReachable W k s) : 0 ≤ s.active ∧ s.active ≤ W := by
  refine ⟨Nat.zero_le _, ?_⟩
  induction h with
  | init => exact Nat.zero_le W
  | step hs hstep ih =>
    cases hstep with
    | start hp ha => exact ha
    | finish ha => exact Nat.le_trans (Nat.sub_le _ _) ih

/-- Witness for C5: with worker budget 2 and a batch of 5, the state after
one task start is reachable and respects the bound. -/
theorem worker_pool_bound_witness :
    0 ≤ (PoolState.mk 4 1 0).active ∧ (PoolState.mk 4 1 0).active ≤ 2 :=
  worker_pool_bound 2 5 ⟨4, 1, 0⟩
    (.step .init (.start ⟨5, 0, 0⟩ (by decide) (by decide)))

/-- C8: if an image's audit call eventually succeeds but its regeneration
call fails terminally, the task still reports `Success` carrying that audit,
with `renovatedImageData = none`; regeneration failure never invalidates the
audit or turns the outcome into a `Failure`. -/
theorem regen_failure_keeps_audit (base R idx : Nat) (url : String)
    (beh : ImageCallBehavior) (a : Audit)
    (haudit : (retryExec base R beh.auditAttempts).result = .ok a)
    (hregen : (retryExec base R beh.regenAttempts).result.isOk = false) :
    runTask base R idx url beh = .success idx url a none := by
  rcases hr : (retryExec base R beh.regenAttempts).result with s | m | m
  · rw [hr] at hregen
    simp [CallResult.isOk] at hregen
  · simp [runTask, haudit, hr]
  · simp [runTask, haudit, hr]

/-- Witness for C8: a concrete behaviour whose audit succeeds at once and
whose regeneration always fails permanently. -/
theorem regen_failure_keeps_audit_witness :
    runTask 1 2 0 "u"
        ⟨fun _ => .ok ⟨"b", "r", 1, "c", 50⟩, fun _ => .permanentErr "p"⟩
      = .success 0 "u" ⟨"b", "r", 1, "c", 50⟩ none :=
  regen_failure_keeps_audit 1 2 0 "u" _ _ rfl rfl

/-- C4: the per-call fault policy on an image's audit call. (a) If all
`R + 1` attempts within the budget fail with classified-transient errors,
the budget is exhausted after exactly `R + 1` calls with exponential backoff
delays `base·2^0, …, base·2^(R-1)` between them, and the image gets a
terminal `Failure`. (b) If `s ≤ R` transient failures are followed by a
success, the image gets a `Success` after `s + 1` calls and the `s`
exponential backoff delays. (c) A classified-permanent error is never
retried: one call, terminal `Failure`. -/
theorem retry_policy (base R idx : Nat) (url : String) (beh : ImageCallBehavior) :
    ((∀ n, n ≤ R → (beh.auditAttempts n).isTransient = true) →
      ∃ m, runTask base R idx url beh = .failure idx url .transient m ∧
        (retryExec base R beh.auditAttempts).callsMade = R + 1 ∧
        (retryExec base R beh.auditAttempts).delays
          = (List.range R).map (backoffDelay base)) ∧
    (∀ s a, s ≤ R → (∀ n, n < s → (beh.auditAttempts n).isTransient = true) →
      beh.auditAttempts s = .ok a →
      (∃ d, runTask base R idx url beh = .success idx url a d) ∧
        (retryExec base R beh.auditAttempts).callsMade = s + 1 ∧
        (retryExec base R beh.auditAttempts).delays
          = (List.range s).map (backoffDelay base)) ∧
    (∀ m, beh.auditAttempts 0 = .permanentErr m →
      runTask base R idx url beh = .failure idx url .permanent m ∧
        (retryExec base R beh.auditAttempts).callsMade = 1) := by
  refine ⟨?_, ?_, ?_⟩
  · intro h
    have hex := retryExec_exhaust base R beh.auditAttempts h
    have hR := h R (Nat.le_refl R)
    rcases ha : beh.auditAttempts R with a | m | m
    · rw [ha] at hR
      simp [CallResult.isTransient] at hR
    · refine ⟨m, ?_, ?_, ?_⟩
      · rw [runTask, hex, ha]
      · rw [hex]
      · rw [hex]
    · rw [ha] at hR
      simp [CallResult.isTransient] at hR
  · intro s a hs h hok
    have hspec := retryExec_spec base R s beh.auditAttempts hs h
      (by rw [hok]; rfl)
    rw [hok] at hspec
    refine ⟨?_, ?_, ?_⟩
    · rcases hr : (retryExec base R beh.regenAttempts).result with s' | m | m
      · exact ⟨some s', by rw [runTask, hspec, hr]⟩
      · exact ⟨none, by rw [runTask, hspec, hr]⟩
      · exact ⟨none, by rw [runTask, hspec, hr]⟩
    · rw [hspec]
    · rw [hspec]
  · intro m hm
    have hspec := retryExec_spec base R 0 beh.auditAttempts (Nat.zero_le R)
      (by omega) (by rw [hm]; rfl)
    rw [hm] at hspec
    constructor
    · rw [runTask, hspec]
    · rw [hspec]

/-- Witness for C4 at retry budget 2: an always-transient audit is a terminal
transient failure; two transient attempts then a success is a `Success`; an
immediately permanent audit is a one-call permanent failure. -/
theorem retry_policy_witness :
    (∃ m, runTask 1 2 0 "u" ⟨fun _ => .transientErr "t", fun _ => .ok "img"⟩
        = .failure 0 "u" .transient m) ∧
    (∃ d, runTask 1 2 0 "u"
        ⟨fun n => if n < 2 then .transientErr "t" else .ok ⟨"b", "r", 1, "c", 50⟩,
         fun _ => .ok "img"⟩
        = .success 0 "u" ⟨"b", "r", 1, "c", 50⟩ d) ∧
    runTask 1 2 0 "u" ⟨fun _ => .permanentErr "p", fun _ => .ok "img"⟩
        = .failure 0 "u" .permanent "p" := by
  refine ⟨?_, ?_, ?_⟩
  · obtain ⟨m, hm, _⟩ :=
      (retry_policy 1 2 0 "u" ⟨fun _ => .transientErr "t", fun _ => .ok "img"⟩).1
        (fun n _ => rfl)
    exact ⟨m, hm⟩
  · obtain ⟨⟨d, hd⟩, _, _⟩ :=
      (retry_policy 1 2 0 "u"
        ⟨fun n => if n < 2 then .transientErr "t" else .ok ⟨"b", "r", 1, "c", 50⟩,
         fun _ => .ok "img"⟩).2.1 2 ⟨"b", "r", 1, "c", 50⟩ (Nat.le_refl 2)
        (fun n hn => by simp only [if_pos hn]; rfl)
        (by simp)
    exact ⟨d, hd⟩
  · exact ((retry_policy 1 2 0 "u" ⟨fun _ => .permanentErr "p", fun _ => .ok "img"⟩).2.2
      "p" rfl).1

/-- An outcome is a failure exactly when it is not a success. -/
theorem isFailure_eq_not_isSuccess (o : PerImageOutcome) :
    o.isFailure = !o.isSuccess := by
  cases o <;> rfl

/-- C3: if exactly one selected image's audit fails terminally (a permanent
failure injected on every attempt of image `j`) while every other selected
image's calls succeed, then the batch has exactly one `Failure` outcome —
for index `j`, with the permanent kind — and `min(N,M) - 1` `Success`
outcomes; an outcome at any other position is unaffected by image `j`'s
behaviour; and the request still completes successfully, returning the mixed
results array. -/
theorem failure_isolation (base R maxImages : Nat) (photoSet : List String)
    (beh : Nat → ImageCallBehavior) (j : Nat) (msg : String)
    (hj : j < min photoSet.length maxImages)
    (hfail : ∀ n, (beh j).auditAttempts n = .permanentErr msg)
    (hok : ∀ i, i < min photoSet.length maxImages → i ≠ j →
      ∃ a, (beh i).auditAttempts 0 = .ok a) :
    (runPipeline base R photoSet maxImages beh).countP PerImageOutcome.isFailure = 1 ∧
    (runPipeline base R photoSet maxImages beh).countP PerImageOutcome.isSuccess
        = min photoSet.length maxImages - 1 ∧
    (∀ o ∈ runPipeline base R photoSet maxImages beh,
      (o.imageIndex = j → o.isFailure = true ∧ o.errorKind = some .permanent) ∧
      (o.imageIndex ≠ j → o.isSuccess = true)) ∧
    (∀ beh' : Nat → ImageCallBehavior, (∀ i, i ≠ j → beh' i = beh i) →
      ∀ i, i ≠ j →
        (runPipeline base R photoSet maxImages beh')[i]?
          = (runPipeline base R photoSet maxImages beh)[i]?) ∧
    (∀ (urlOk : String → Bool) (req : AnalysisRequest) (page : String)
        (parsePage : String → ListingMetadata × List String)
        (metadata : ListingMetadata),
      validateRequest urlOk req = none → req.maxImages = maxImages →
      parsePage page = (metadata, photoSet) →
      analyzeFromListing base R urlOk req (.ok page) parsePage beh
        = (.ok (aggregate metadata photoSet.length
              (runPipeline base R photoSet maxImages beh)),
           totalCallCount base R photoSet maxImages beh)) := by
  have hmem : ∀ p ∈ (photoSet.take maxImages).enum,
      p.1 < min photoSet.length maxImages := by
    intro p hp
    have h1 : p.1 ∈ (photoSet.take maxImages).enum.map Prod.fst :=
      List.mem_map_of_mem Prod.fst hp
    rw [List.enum_map_fst, List.length_take] at h1
    have := List.mem_range.mp h1
    omega
  have htaskj : ∀ u : String,
      runTask base R j u (beh j) = .failure j u .permanent msg := by
    intro u
    have hre : retryExec base R (beh j).auditAttempts
        = ⟨.permanentErr msg, 1, []⟩ := by
      rw [retryExec]
      exact retryFrom_permanent base _ 0 R msg (hfail 0)
    rw [runTask, hre]
  have htaski : ∀ i u, i < min photoSet.length maxImages → i ≠ j →
      (runTask base R i u (beh i)).isSuccess = true := by
    intro i u hik hij
    obtain ⟨a, ha⟩ := hok i hik hij
    have hre : retryExec base R (beh i).auditAttempts = ⟨.ok a, 1, []⟩ := by
      rw [retryExec]
      exact retryFrom_ok base _ 0 R a ha
    rcases hr : (retryExec base R (beh i).regenAttempts).result with s | m | m <;>
      simp [runTask, hre, hr, PerImageOutcome.isSuccess]
  have hcount : (runPipeline base R photoSet maxImages beh).countP
      PerImageOutcome.isFailure = 1 := by
    rw [runPipeline, selectPhotos, List.countP_map]
    have hc : List.countP
        (PerImageOutcome.isFailure ∘ fun p => runTask base R p.1 p.2 (beh p.1))
        (photoSet.take maxImages).enum
        = List.countP (fun p : Nat × String => decide (p.1 = j))
            (photoSet.take maxImages).enum := by
      refine List.countP_congr fun p hp => ?_
      simp only [Function.comp_apply, decide_eq_true_eq]
      constructor
      · intro hf
        by_contra hne
        have := htaski p.1 p.2 (hmem p hp) hne
        rw [isFailure_eq_not_isSuccess, this] at hf
        simp at hf
      · intro hpj
        rw [hpj, htaskj p.2]
        rfl
    rw [hc]
    have hmap := List.countP_map (fun x : Nat => decide (x = j)) Prod.fst
      (photoSet.take maxImages).enum
    have hcomp : List.countP (fun p : Nat × String => decide (p.1 = j))
        (photoSet.take maxImages).enum
        = List.countP (fun x : Nat => decide (x = j))
            ((photoSet.take maxImages).enum.map Prod.fst) := by
      rw [hmap]
      rfl
    rw [hcomp, List.enum_map_fst, List.length_take]
    have hcnt : List.countP (fun x : Nat => decide (x = j))
        (List.range (min maxImages photoSet.length))
        = List.count j (List.range (min maxImages photoSet.length)) := by
      rw [List.count_eq_countP]
      refine List.countP_congr fun x _ => ?_
      simp
    rw [hcnt]
    exact List.count_eq_one_of_mem (List.nodup_range _)
      (List.mem_range.mpr (by omega))
  refine ⟨hcount, ?_, ?_, ?_, ?_⟩
  · have hlen : (runPipeline base R photoSet maxImages beh).length
        = min photoSet.length maxImages := by
      simp [runPipeline, selectPhotos, Nat.min_comm]
    have hsplit := List.length_eq_countP_add_countP PerImageOutcome.isSuccess
      (runPipeline base R photoSet maxImages beh)
    have hcomp : List.countP (fun o => decide ¬ o.isSuccess = true)
        (runPipeline base R photoSet maxImages beh)
        = List.countP PerImageOutcome.isFailure
            (runPipeline base R photoSet maxImages beh) := by
      refine List.countP_congr fun o _ => ?_
      cases o <;> simp [PerImageOutcome.isSuccess, PerImageOutcome.isFailure]
    rw [hcomp, hcount, hlen] at hsplit
    omega
  · intro o ho
    rw [runPipeline, selectPhotos] at ho
    obtain ⟨p, hp, rfl⟩ := List.mem_map.mp ho
    constructor
    · intro hoj
      rw [runTask_imageIndex] at hoj
      rw [hoj, htaskj p.2]
      exact ⟨rfl, rfl⟩
    · intro hoj
      rw [runTask_imageIndex] at hoj
      exact htaski p.1 p.2 (hmem p hp) hoj
  · intro beh' hbeh i hij
    simp only [runPipeline, selectPhotos, List.getElem?_map, List.getElem?_enum,
      Option.map_map]
    rcases (photoSet.take maxImages)[i]? with _ | u
    · rfl
    · simp [hbeh i hij]
  · intro urlOk req page parsePage metadata hval hmax hparse
    have hne : photoSet.isEmpty = false := by
      rcases photoSet with _ | ⟨x, xs⟩
      · simp at hj
      · rfl
    simp only [analyzeFromListing, hval, hparse, hmax, hne]
    rw [if_neg (by simp [hne])]

/-- Witness for C3: a two-photo batch in which image 0's audit permanently
fails and image 1 succeeds has exactly one `Failure` outcome. -/
theorem failure_isolation_witness :
    (runPipeline 1 0 ["a", "b"] 2
        (fun i => if i = 0
          then ⟨fun _ => .permanentErr "boom", fun _ => .ok "img"⟩
          else ⟨fun _ => .ok ⟨"w", "r", 1, "c", 50⟩, fun _ => .ok "img"⟩)).countP
      PerImageOutcome.isFailure = 1 :=
  (failure_isolation 1 0 2 ["a", "b"]
    (fun i => if i = 0
      then ⟨fun _ => .permanentErr "boom", fun _ => .ok "img"⟩
      else ⟨fun _ => .ok ⟨"w", "r", 1, "c", 50⟩, fun _ => .ok "img"⟩)
    0 "boom" (by decide) (fun n => rfl)
    (fun i _ hij => ⟨⟨"w", "r", 1, "c", 50⟩, by simp [hij]⟩)).1

/-- A task issues two external calls exactly when its outcome is a
`Success`, and always issues one or two. -/
theorem taskCallCount_eq (base R i : Nat) (url : String)
    (beh : ImageCallBehavior) :
    (taskCallCount base R beh = 2 ↔ (runTask base R i url beh).isSuccess = true) ∧
    (taskCallCount base R beh = 1 ∨ taskCallCount base R beh = 2) := by
  rcases ha : (retryExec base R beh.auditAttempts).result with a | m | m
  · refine ⟨⟨fun _ => ?_, fun _ => by simp [taskCallCount, ha]⟩, Or.inr (by simp [taskCallCount, ha])⟩
    rcases hr : (retryExec base R beh.regenAttempts).result with s | m | m <;>
      simp [runTask, ha, hr, PerImageOutcome.isSuccess]
  · refine ⟨⟨fun h2 => ?_, fun hs => ?_⟩, Or.inl (by simp [taskCallCount, ha])⟩
    · simp [taskCallCount, ha] at h2
    · rw [runTask, ha] at hs
      simp [PerImageOutcome.isSuccess] at hs
  · refine ⟨⟨fun h2 => ?_, fun hs => ?_⟩, Or.inl (by simp [taskCallCount, ha])⟩
    · simp [taskCallCount, ha] at h2
    · rw [runTask, ha] at hs
      simp [PerImageOutcome.isSuccess] at hs

/-- Summed over any work list, the call count is at most twice the number of
items, with equality exactly when every produced outcome is a `Success`. -/
theorem callCount_sum (base R : Nat) (beh : Nat → ImageCallBehavior) :
    ∀ items : List (Nat × String),
      ((items.map fun p => taskCallCount base R (beh p.1)).sum ≤ 2 * items.length) ∧
      (((items.map fun p => taskCallCount base R (beh p.1)).sum = 2 * items.length) ↔
        ∀ o ∈ items.map fun p => runTask base R p.1 p.2 (beh p.1),
          o.isSuccess = true) := by
  intro items
  induction items with
  | nil => simp
  | cons p items ih =>
    obtain ⟨hiff, hcases⟩ := taskCallCount_eq base R p.1 p.2 (beh p.1)
    obtain ⟨ihle, ihiff⟩ := ih
    simp only [List.map_cons, List.sum_cons, List.length_cons, List.mem_cons]
    constructor
    · rcases hcases with h | h <;> omega
    · constructor
      · intro heq o ho
        have hc2 : taskCallCount base R (beh p.1) = 2 := by
          rcases hcases with h | h <;> omega
        have hs : (items.map fun p => taskCallCount base R (beh p.1)).sum
            = 2 * items.length := by omega
        rcases ho with rfl | ho
        · exact hiff.mp hc2
        · exact ihiff.mp hs o ho
      · intro hall
        have hc2 : taskCallCount base R (beh p.1) = 2 :=
          hiff.mpr (hall _ (Or.inl rfl))
        have hs := ihiff.mpr fun o ho => hall o (Or.inr ho)
        omega

/-- C6: one invocation selecting `k` images issues at most `2·k` external
analysis operations — each task audits once and regenerates only after a
successful audit — with equality exactly when every audit succeeded (the
all-success path) and strictly fewer whenever some audit failed before its
regeneration was attempted. -/
theorem external_call_budget (base R maxImages : Nat) (photoSet : List String)
    (beh : Nat → ImageCallBehavior) :
    totalCallCount base R photoSet maxImages beh
        ≤ 2 * min photoSet.length maxImages ∧
    (totalCallCount base R photoSet maxImages beh
        = 2 * min photoSet.length maxImages ↔
      ∀ o ∈ runPipeline base R photoSet maxImages beh, o.isSuccess = true) ∧
    ((∃ o ∈ runPipeline base R photoSet maxImages beh, o.isFailure = true) →
      totalCallCount base R photoSet maxImages beh
        < 2 * min photoSet.length maxImages) := by
  have hlen : (selectPhotos photoSet maxImages).length
      = min photoSet.length maxImages := by
    simp [selectPhotos, Nat.min_comm]
  obtain ⟨hle, hiff⟩ := callCount_sum base R beh (selectPhotos photoSet maxImages)
  rw [hlen] at hle hiff
  rw [totalCallCount]
  refine ⟨hle, hiff, ?_⟩
  rintro ⟨o, ho, hfo⟩
  refine Nat.lt_of_le_of_ne hle fun heq => ?_
  have hsucc := hiff.mp heq o ho
  rw [isFailure_eq_not_isSuccess, hsucc] at hfo
  simp at hfo

/-- Witness for C6: with one failing audit among two selected photos,
strictly fewer than `2·k` calls are issued. -/
theorem external_call_budget_witness :
    totalCallCount 1 0 ["a", "b"] 2
        (fun i => if i = 0
          then ⟨fun _ => .permanentErr "boom", fun _ => .ok "img"⟩
          else ⟨fun _ => .ok ⟨"w", "r", 1, "c", 50⟩, fun _ => .ok "img"⟩)
      < 2 * min (List.length ["a", "b"]) 2 :=
  (external_call_budget 1 0 2 ["a", "b"]
    (fun i => if i = 0
      then ⟨fun _ => .permanentErr "boom", fun _ => .ok "img"⟩
      else ⟨fun _ => .ok ⟨"w", "r", 1, "c", 50⟩, fun _ => .ok "img"⟩)).2.2
    (by decide)

/-- C7: every listing-level failure rejects the whole request with its
specific kind before any analysis call is issued — a validation failure as
`ValidationError`, a fetch failure as the matching `ScrapeError` kind, zero
extracted photos as `ScrapeError{ParseError}` — the request succeeds exactly
when no listing-level failure occurred, and a per-image `Failure` outcome in
a successful report only ever carries an analysis-level (transient or
permanent) kind, never a listing-level one. -/
theorem listing_failures_fail_fast (base R : Nat) (urlOk : String → Bool)
    (req : AnalysisRequest) (fetchResult : Except ScrapeErrorKind String)
    (parsePage : String → ListingMetadata × List String)
    (beh : Nat → ImageCallBehavior) :
    (∀ e, validateRequest urlOk req = some e →
      analyzeFromListing base R urlOk req fetchResult parsePage beh
        = (.error e, 0)) ∧
    (∀ kind, validateRequest urlOk req = none → fetchResult = .error kind →
      analyzeFromListing base R urlOk req fetchResult parsePage beh
        = (.error (.scrape kind), 0)) ∧
    (∀ page, validateRequest urlOk req = none → fetchResult = .ok page →
      (parsePage page).2 = [] →
      analyzeFromListing base R urlOk req fetchResult parsePage beh
        = (.error (.scrape .parseError), 0)) ∧
    ((∃ report, (analyzeFromListing base R urlOk req fetchResult parsePage beh).1
        = .ok report) ↔
      validateRequest urlOk req = none ∧
      ∃ page, fetchResult = .ok page ∧ (parsePage page).2 ≠ []) ∧
    (∀ report, (analyzeFromListing base R urlOk req fetchResult parsePage beh).1
        = .ok report →
      ∀ o ∈ report.results, o.isFailure = true →
        o.errorKind = some .transient ∨ o.errorKind = some .permanent) := by
  refine ⟨?_, ?_, ?_, ?_, ?_⟩
  · intro e he
    simp [analyzeFromListing, he]
  · intro kind hval hf
    simp [analyzeFromListing, hval, hf]
  · intro page hval hf hp
    simp [analyzeFromListing, hval, hf, hp]
  · constructor
    · rintro ⟨report, hrep⟩
      rcases hval : validateRequest urlOk req with _ | e
      · rcases fetchResult with kind | page
        · simp [analyzeFromListing, hval] at hrep
        · refine ⟨rfl, page, rfl, fun hnil => ?_⟩
          simp [analyzeFromListing, hval, hnil] at hrep
      · simp [analyzeFromListing, hval] at hrep
    · rintro ⟨hval, page, hf, hne⟩
      subst hf
      have hemp : (parsePage page).2.isEmpty = false := by
        rcases hsnd : (parsePage page).2 with _ | _
        · exact absurd hsnd hne
        · rfl
      exact ⟨aggregate (parsePage page).1 (parsePage page).2.length
        (runPipeline base R (parsePage page).2 req.maxImages beh),
        by simp [analyzeFromListing, hval, hemp]⟩
  · intro report hrep o ho hfo
    rcases o with ⟨i, u, a, d⟩ | ⟨i, u, k, m⟩
    · simp [PerImageOutcome.isFailure] at hfo
    · rcases k with _ | _
      · exact Or.inl rfl
      · exact Or.inr rfl

/-- Witness for C7: an empty listing URL, a removed listing, and a listing
with zero extracted photos each reject the request with the specific kind
and zero analysis calls issued. -/
theorem listing_failures_fail_fast_witness :
    analyzeFromListing 1 0 (fun _ => true) ⟨"", 5⟩ (.ok "page")
        (fun _ => (⟨none, none, none, none, none, none, none, none⟩, ["a"]))
        (fun _ => ⟨fun _ => .ok ⟨"w", "r", 1, "c", 50⟩, fun _ => .ok "img"⟩)
      = (.error (.validation "missing listing_url"), 0) ∧
    analyzeFromListing 1 0 (fun _ => true) ⟨"u", 5⟩ (.error .notFound)
        (fun _ => (⟨none, none, none, none, none, none, none, none⟩, ["a"]))
        (fun _ => ⟨fun _ => .ok ⟨"w", "r", 1, "c", 50⟩, fun _ => .ok "img"⟩)
      = (.error (.scrape .notFound), 0) ∧
    analyzeFromListing 1 0 (fun _ => true) ⟨"u", 5⟩ (.ok "page")
        (fun _ => (⟨none, none, none, none, none, none, none, none⟩, []))
        (fun _ => ⟨fun _ => .ok ⟨"w", "r", 1, "c", 50⟩, fun _ => .ok "img"⟩)
      = (.error (.scrape .parseError), 0) :=
  ⟨(listing_failures_fail_fast 1 0 (fun _ => true) ⟨"", 5⟩ (.ok "page")
      (fun _ => (⟨none, none, none, none, none, none, none, none⟩, ["a"]))
      (fun _ => ⟨fun _ => .ok ⟨"w", "r", 1, "c", 50⟩, fun _ => .ok "img"⟩)).1
      (.validation "missing listing_url") rfl,
   (listing_failures_fail_fast 1 0 (fun _ => true) ⟨"u", 5⟩ (.error .notFound)
      (fun _ => (⟨none, none, none, none, none, none, none, none⟩, ["a"]))
      (fun _ => ⟨fun _ => .ok ⟨"w", "r", 1, "c", 50⟩, fun _ => .ok "img"⟩)).2.1
      .notFound rfl rfl,
   (listing_failures_fail_fast 1 0 (fun _ => true) ⟨"u", 5⟩ (.ok "page")
      (fun _ => (⟨none, none, none, none, none, none, none, none⟩, []))
      (fun _ => ⟨fun _ => .ok ⟨"w", "r", 1, "c", 50⟩, fun _ => .ok "img"⟩)).2.2.1
      "page" rfl rfl rfl⟩

end Hearth
